import Mathlib

/-!
Verification development for the otter-grader `assign.py` notebook
transformation (`src/otter/assign.py`).  The Python source is embedded
shallowly: cells are records of lines, the one-pass question segmenter is a
step function over an explicit state, file writes are an association list,
and `assert` failures / uncaught exceptions are `Except.error` values.
All definitions are computable and follow the source line by line; the
regular expressions of the source are embedded as explicit character-list
matchers with the same prefix-match (`re.match`) semantics.
-/

namespace Otter

/-! ### Python string primitives

Helpers mirroring the Python `str` operations used by `assign.py`.  They are
written by structural recursion over `String.data` so that every concrete
instance reduces by `rfl`/`decide`. -/

/-- Python's `\s` character class (`re` default) and `str.strip()` whitespace:
space, tab, newline, carriage return, form feed, vertical tab. -/
def pyIsSpace (c : Char) : Bool :=
  c == ' ' || c == '\t' || c == '\n' || c == '\r' || c == '\x0c' || c == '\x0b'

/-- Python `str.strip()` (no argument): remove leading and trailing whitespace. -/
def pyStrip (s : String) : String :=
  String.mk (((s.data.dropWhile pyIsSpace).reverse.dropWhile pyIsSpace).reverse)

/-- Python `str.strip(' ')`: remove leading and trailing space characters only. -/
def pyStripSpaces (s : String) : String :=
  String.mk (((s.data.dropWhile (fun c => c == ' ')).reverse.dropWhile
    (fun c => c == ' ')).reverse)

/-- Python `str.startswith`. -/
def strStartsWith (s pat : String) : Bool :=
  pat.data.isPrefixOf s.data

/-- Python `str.endswith`. -/
def strEndsWith (s pat : String) : Bool :=
  pat.data.reverse.isPrefixOf s.data.reverse

/-- Python `s.split('\n')` (note: `"".split('\n') == ['']`). -/
def splitLinesAux : List Char → List Char → List String
  | [], acc => [String.mk acc.reverse]
  | c :: rest, acc =>
    if c == '\n' then String.mk acc.reverse :: splitLinesAux rest []
    else splitLinesAux rest (c :: acc)

/-- Python `s.split('\n')`. -/
def splitLines (s : String) : List String :=
  splitLinesAux s.data []

/-- Python `'\n'.join(lines)`. -/
def joinNL : List String → String
  | [] => ""
  | [l] => l
  | l :: ls => l ++ "\n" ++ joinNL ls

/-! ### Embedded regular expressions

`assign.py` matches cells against three patterns with `re.match` (anchored at
the start of the line, rest of the line unconstrained) and `re.IGNORECASE`:

* `TEST_REGEX`: hash hash, `\s*`, optional (`hidden` `\s*`), `test`, `\s*`, hash hash;
* `SOLUTION_REGEX`: hash hash, `\s*`, `solution`, `\s*`, hash hash;
* `MD_SOLUTION_REGEX`: `<strong>` or two asterisks, `solution`, optional colon,
  `</strong>` or two asterisks.

`stripCI` consumes a literal token case-insensitively (the patterns below are
written in lower case); alternations whose branches start with distinct
characters, and optional tokens whose follow sets are disjoint from the
token's first character, are rendered as plain `Option`/`||` combinations:
no further backtracking can change the outcome. -/

/-- Case-insensitive literal-token consumption: `some rest` iff `pat`
(given in lower case) is a prefix of `l` up to `Char.toLower`. -/
def stripCI : List Char → List Char → Option (List Char)
  | [], l => some l
  | _ :: _, [] => none
  | p :: ps, c :: cs => if c.toLower == p then stripCI ps cs else none

/-- `test\s*##`, the common tail of `TEST_REGEX`. -/
def testWord (r : List Char) : Bool :=
  match stripCI ['t', 'e', 's', 't'] r with
  | none => false
  | some r2 => (stripCI ['#', '#'] (r2.dropWhile pyIsSpace)).isSome

/-- `(hidden\s*)?test\s*##`, the part of `TEST_REGEX` after `##\s*`. -/
def testTail (r : List Char) : Bool :=
  (match stripCI ['h', 'i', 'd', 'd', 'e', 'n'] r with
   | some rh => testWord (rh.dropWhile pyIsSpace)
   | none => false)
  || testWord r

/-- `re.match(TEST_REGEX, line, re.IGNORECASE)` as a Boolean. -/
def testRegexMatch (l : List Char) : Bool :=
  match stripCI ['#', '#'] l with
  | none => false
  | some r => testTail (r.dropWhile pyIsSpace)

/-- `re.match(SOLUTION_REGEX, line, re.IGNORECASE)` as a Boolean. -/
def solutionRegexMatch (l : List Char) : Bool :=
  match stripCI ['#', '#'] l with
  | none => false
  | some r =>
    match stripCI ['s', 'o', 'l', 'u', 't', 'i', 'o', 'n'] (r.dropWhile pyIsSpace) with
    | none => false
    | some r2 => (stripCI ['#', '#'] (r2.dropWhile pyIsSpace)).isSome

/-- Opening alternation of `MD_SOLUTION_REGEX`: `<strong>` or two asterisks. -/
def mdOpen (l : List Char) : Option (List Char) :=
  match stripCI ['<', 's', 't', 'r', 'o', 'n', 'g', '>'] l with
  | some r => some r
  | none => stripCI ['*', '*'] l

/-- Closing alternation of `MD_SOLUTION_REGEX`: `</strong>` or two asterisks. -/
def mdClose (r : List Char) : Bool :=
  (stripCI ['<', '/', 's', 't', 'r', 'o', 'n', 'g', '>'] r).isSome
  || (stripCI ['*', '*'] r).isSome

/-- `re.match(MD_SOLUTION_REGEX, line, re.IGNORECASE)` as a Boolean. -/
def mdSolutionRegexMatch (l : List Char) : Bool :=
  match mdOpen l with
  | none => false
  | some r =>
    match stripCI ['s', 'o', 'l', 'u', 't', 'i', 'o', 'n'] r with
    | none => false
    | some r2 =>
      (match stripCI [':'] r2 with
       | some r3 => mdClose r3
       | none => false)
      || mdClose r2

/-- `re.search("hidden", line, re.IGNORECASE)` as a Boolean (substring test). -/
def hasHiddenCI : List Char → Bool
  | [] => false
  | c :: cs =>
    (stripCI ['h', 'i', 'd', 'd', 'e', 'n'] (c :: cs)).isSome || hasHiddenCI cs

/-- `ALLOWED_NAME = re.compile(r'[A-Za-z][A-Za-z0-9_]*')`; `ALLOWED_NAME.match(s)`
is truthy iff a match exists at the start of `s`.  The trailing
`[A-Za-z0-9_]*` also matches the empty string, so a match at the start exists
iff the first character is an ASCII letter: `re.match` does not anchor the end. -/
def reMatchAllowedName (s : String) : Bool :=
  match s.data with
  | [] => false
  | c :: _ => c.isAlpha

/-- Full-anchored version of the identifier pattern,
`^[A-Za-z][A-Za-z0-9_]*$`, as the specification words it.  This is NOT what
the source checks; it is stated here for comparison with `reMatchAllowedName`. -/
def allowedNameFull (s : String) : Bool :=
  match s.data with
  | [] => false
  | c :: rest => c.isAlpha && rest.all (fun d => d.isAlpha || d.isDigit || d == '_')

/-! ### Data model -/

/-- `cell['cell_type']`. -/
inductive CellType
  | code
  | markdown
deriving DecidableEq, Repr

/-- One execution-output record attached to a code cell.  `text` models
`o.get('text', '')` (a string or a list of strings, joined by `''.join`);
`data_text_plain` models `o.get('data', {}).get('text/plain')`, which is
either a plain string or a list of strings. -/
structure Output where
  text : List String := []
  data_text_plain : Option (String ⊕ List String) := none
deriving DecidableEq, Repr

/-- A notebook cell.  `source` is the list of lines (`get_source`); `editable`
and `deletable` are the two metadata flags written by `lock`. -/
structure Cell where
  cell_type : CellType
  source : List String
  outputs : List Output := []
  editable : Bool := true
  deletable : Bool := true
deriving DecidableEq, Repr

instance : Inhabited Cell := ⟨{ cell_type := CellType.code, source := [] }⟩

/-- `BLOCK_QUOTE` (the three-backtick fence token). -/
def BLOCK_QUOTE : String := "```"

/-- `MD_ANSWER_CELL_TEMPLATE`. -/
def MD_ANSWER_CELL_TEMPLATE : String := "_Type your answer here, replacing this text._"

/-- `lock(cell)`: set the two metadata flags to `False`. -/
def lock (c : Cell) : Cell :=
  { c with editable := false, deletable := false }

/-- The relevant keys of the mapping returned by `yaml.load` on a question
metadata block.  A `none` field models an absent key (`dict.get` default). -/
structure QMeta where
  name : Option String := none
  manual : Bool := false
  format : String := ""
  public_points : Option Int := none
  private_points : Option Int := none
  points : Option Int := none
deriving DecidableEq, Repr

/-- `Test = namedtuple('Test', ['input', 'output', 'hidden'])`. -/
structure Test where
  input : String
  output : String
  hidden : Bool
deriving DecidableEq, Repr

/-- One entry of the `cases` list built by `gen_case`. -/
structure TestCase where
  code : String
  hidden : Bool
  locked : Bool
deriving DecidableEq, Repr

/-- The suite dictionary built by `gen_suite`. -/
structure TestSuite where
  cases : List TestCase
  scored : Bool
  setup : String
  teardown : String
  type : String
deriving DecidableEq, Repr

/-- The test dictionary persisted by `write_test` from `gen_test_cell`. -/
structure TestFileRec where
  name : String
  points : Int
  hidden : Bool
  suites : List TestSuite
deriving DecidableEq, Repr

/-- A tests directory: filenames mapped to the written test records. -/
abbrev TestDir := List (String × TestFileRec)

/-- `write_test(path, test)`: (re)write one file in the directory. -/
def write_test (dir : TestDir) (fname : String) (tf : TestFileRec) : TestDir :=
  (dir.filter (fun e => !(e.1 == fname))) ++ [(fname, tf)]

/-! ### Errors

Uncaught Python exceptions (`assert` failures, and the index/type errors the
source can raise) abort the whole transformation; they are modelled as
`Except.error` of this type. -/

inductive SegError
  | fenceParse (source : List String)          -- `cannot parse` (odd fence count)
  | multipleQuestions (source : List String)   -- `multiple questions defined`
  | questionInPromptPos (cell : Cell)          -- line 155 assert
  | testInPromptPos (cell : Cell)              -- line 156 assert
  | solutionInPromptPos (cell : Cell)          -- line 157 assert
  | testOutsideQuestion (cell : Cell)          -- line 213 assert
  | badName (meta : QMeta)                     -- line 303 assert
  | badFenceStart (source : List String)       -- line 276 assert
  | noQuestionFence (source : List String)     -- `None` arithmetic, unreachable
  | indexOut (source : List String)            -- list index past the end
  | missingName                                -- `question['name']` on `{}`
deriving DecidableEq, Repr

/-! ### Cell classifiers (`assign.py` lines 234-254, 307-312) -/

/-- `find_question_spec(source)`: the line number of the `BEGIN QUESTION` line,
or `none`.  `block_quotes` enumerates the indices whose line is exactly the
fence token; an odd count or more than one `BEGIN QUESTION` fence is a hard
failure.  (When the count is even, every fence index at an even position in
`block_quotes` is strictly below the last fence index, so the Python access
`source[block_quotes[i]+1]` is in range; `getD` is then exact.) -/
def find_question_spec (source : List String) : Except SegError (Option Nat) :=
  let block_quotes :=
    (List.range source.length).filter (fun i => source.getD i "" == BLOCK_QUOTE)
  if block_quotes.length % 2 ≠ 0 then
    Except.error (SegError.fenceParse source)
  else
    let begins :=
      ((List.range block_quotes.length).filter (fun j => j % 2 == 0)).filterMap
        (fun j =>
          let b := block_quotes.getD j 0
          if pyStripSpaces (source.getD (b + 1) "") == "BEGIN QUESTION" then
            some (b + 1)
          else none)
    if begins.length > 1 then Except.error (SegError.multipleQuestions source)
    else Except.ok begins.head?

/-- `is_question_cell(cell)`: markdown and `find_question_spec` finds a spec.
Partial: it propagates the fence-balance failure of `find_question_spec`. -/
def is_question_cell (cell : Cell) : Except SegError Bool :=
  if cell.cell_type ≠ CellType.markdown then Except.ok false
  else do
    let r ← find_question_spec cell.source
    pure r.isSome

/-- `is_solution_cell(cell)`: markdown cells match `MD_SOLUTION_REGEX` on any
line (guarded by `source and ...`), code cells match `SOLUTION_REGEX` on the
first line. -/
def is_solution_cell (cell : Cell) : Bool :=
  match cell.cell_type with
  | CellType.markdown =>
    !cell.source.isEmpty && cell.source.any (fun l => mdSolutionRegexMatch l.data)
  | CellType.code =>
    match cell.source with
    | [] => false
    | l :: _ => solutionRegexMatch l.data

/-- `is_markdown_solution_cell(cell)`.  The source reads
`return is_solution_cell and any([...])`: the conjunct `is_solution_cell` is
the *function object*, not a call, hence always truthy, so the returned value
is just the `any` over `MD_SOLUTION_REGEX` matches — for code cells too. -/
def is_markdown_solution_cell (cell : Cell) : Bool :=
  cell.source.any (fun l => mdSolutionRegexMatch l.data)

/-- `is_test_cell(cell)`: code and the first line matches `TEST_REGEX`. -/
def is_test_cell (cell : Cell) : Bool :=
  match cell.cell_type with
  | CellType.code =>
    match cell.source with
    | [] => false
    | l :: _ => testRegexMatch l.data
  | _ => false

/-! ### Test extraction and compilation (`assign.py` lines 318-416) -/

/-- The output-concatenation loop of `read_test`: for every output record,
append its text payload, then its `text/plain` data payload (first element if
it is a list).  Appending an empty string is the identity, so the Python
truthiness guard `elif results:` on a plain string is inert. -/
def readTestOutput (outs : List Output) : String :=
  outs.foldl
    (fun acc o =>
      let acc := acc ++ o.text.foldl (fun a b => a ++ b) ""
      match o.data_text_plain with
      | none => acc
      | some (Sum.inl s) => acc ++ s
      | some (Sum.inr l) =>
        match l with
        | [] => acc
        | x :: _ => acc ++ x)
    ""

/-- `read_test(cell)`: hidden iff the marker line contains `hidden`
(case-insensitive search); input is every line after the marker joined by
newlines; output is the concatenated textual results.  Only called on test
cells, whose source is non-empty. -/
def read_test (cell : Cell) : Test :=
  { input := joinNL (cell.source.drop 1)
    output := readTestOutput cell.outputs
    hidden := hasHiddenCI (cell.source.headD "").data }

/-- The marker pass of `gen_case` (lines 399-406): a line starting with
whitespace, or following a line that ends in a backslash, is a continuation;
all others are statements. -/
def renderAux : List String → Bool → List String
  | [], _ => []
  | l :: ls, lastEndEscape =>
    (if (match l.data with | [] => false | c :: _ => pyIsSpace c) || lastEndEscape
     then "... " ++ l
     else ">>> " ++ l)
      :: renderAux ls (strEndsWith l "\\")

/-- The rendered transcript lines of a test input, before suppression. -/
def renderLines (input : String) : List String :=
  renderAux (splitLines input) false

/-- The suppression pass of `gen_case` (lines 408-410): append `;` to a line
whenever the next line starts with the statement marker, the stripped line is
longer than 3 characters, and the line does not end in a backslash.  The
Python loop mutates `code_lines[i]` in place, but iteration `i` reads only
`code_lines[i]` and `code_lines[i+1]`, neither of which has been written yet,
so the lookahead always sees the original next line. -/
def suppressLines : List String → List String
  | [] => []
  | [l] => [l]
  | l :: next :: rest =>
    (if strStartsWith next ">>>" && decide ((pyStrip l).length > 3)
        && !strEndsWith l "\\"
     then l ++ ";"
     else l)
      :: suppressLines (next :: rest)

/-- `gen_case(test)`: the rendered and suppressed transcript with the expected
output appended as the last line. -/
def gen_case (test : Test) : TestCase :=
  { code := joinNL (suppressLines (renderLines test.input) ++ [test.output])
    hidden := test.hidden
    locked := false }

/-- `gen_suite(tests)`. -/
def gen_suite (tests : List Test) : TestSuite :=
  { cases := tests.map gen_case
    scored := true
    setup := ""
    teardown := ""
    type := "doctest" }

/-- The point-value resolution of `gen_test_cell` (lines 348-368). -/
def resolvePoints (question : QMeta) (hidden : Bool) : Int :=
  -- if both keys, use those values
  if question.public_points.isSome && question.private_points.isSome then
    if hidden then question.private_points.getD 0 else question.public_points.getD 0
  -- if only public points, assume public & private worth same
  else if question.public_points.isSome then
    question.public_points.getD 0
  -- if only private, assume public worth 0 points
  else if question.private_points.isSome then
    if hidden then question.private_points.getD 0 else 0
  -- else get points and default to 1 if not present
  else
    question.points.getD 1

/-- `gen_test_cell(question, tests, tests_dir, hidden)`: build the locked
grading cell, resolve the points, and persist the test file (name suffixed
with `H` for the hidden tier).  `question['name']` is present in every
metadata mapping that passed `read_question_metadata`; it is read with a
default here and the callers only pass validated mappings. -/
def gen_test_cell (question : QMeta) (tests : List Test) (tests_dir : TestDir)
    (hidden : Bool) : Cell × TestDir :=
  let name := question.name.getD ""
  let src :=
    if hidden then ["grader.check(\"" ++ name ++ "H\")"]
    else ["grader.check(\"" ++ name ++ "\")"]
  let suites := [gen_suite tests]
  let points := resolvePoints question hidden
  let test : TestFileRec := { name := name, points := points, hidden := hidden, suites := suites }
  let fname := if hidden then name ++ "H" ++ ".py" else name ++ ".py"
  (lock { cell_type := CellType.code, source := src }, write_test tests_dir fname test)

/-! ### Question cells (`assign.py` lines 268-304) -/

/-- `read_question_metadata(cell)`: find the fence, collect the lines strictly
between the `BEGIN QUESTION` line and the next line whose `strip()` is the
fence token, parse them as YAML, and `assert ALLOWED_NAME.match(...)` on the
`name` value.  The YAML parser is an external collaborator and is passed in
as the function `py`. -/
def read_question_metadata (py : List String → QMeta) (cell : Cell) :
    Except SegError QMeta := do
  let source := cell.source
  match ← find_question_spec source with
  | none => Except.error (SegError.noQuestionFence source)
  | some b =>
    let rest := source.drop (b + 1)
    if rest.any (fun l => pyStrip l == BLOCK_QUOTE) then
      let metadata := py (rest.takeWhile (fun l => !(pyStrip l == BLOCK_QUOTE)))
      if reMatchAllowedName (metadata.name.getD "") then pure metadata
      else Except.error (SegError.badName metadata)
    else Except.error (SegError.indexOut source)

/-- `gen_question_cell(cell, manual, format)`: prepend the visible
`BEGIN QUESTION` comment pair when manual, then rewrite the metadata fence
delimiters to an HTML comment and lock the cell.  The `format` argument is
accepted and unused, as in the source. -/
def gen_question_cell (cell : Cell) (manual : Bool) (fmt : String) :
    Except SegError Cell := do
  let source :=
    if manual then ["<!-- BEGIN QUESTION -->", ""] ++ cell.source else cell.source
  match ← find_question_spec source with
  | none => Except.error (SegError.noQuestionFence source)
  | some b =>
    let start := b - 1
    if !(pyStrip (source.getD start "") == BLOCK_QUOTE) then
      Except.error (SegError.badFenceStart source)
    else
      let rest := source.drop b
      if rest.any (fun l => pyStrip l == BLOCK_QUOTE) then
        let e := b + rest.findIdx (fun l => pyStrip l == BLOCK_QUOTE)
        pure (lock { cell with source := (source.set start "<!--").set e "-->" })
      else Except.error (SegError.indexOut source)

/-- `gen_close_export_cell()`: the locked `END QUESTION` marker cell. -/
def gen_close_export_cell : Cell :=
  lock { cell_type := CellType.markdown, source := ["<!-- END QUESTION -->"] }

/-- The answer-placeholder markdown cell
(`nbformat.v4.new_markdown_cell(MD_ANSWER_CELL_TEMPLATE)`). -/
def md_answer_cell : Cell :=
  { cell_type := CellType.markdown, source := [MD_ANSWER_CELL_TEMPLATE] }

/-! ### The question segmenter (`gen_ok_cells`, lines 137-221) -/

/-- The mutable state of the `gen_ok_cells` loop.  `question = none` models
the falsy empty dict. -/
structure SegState where
  ok_cells : List Cell := []
  question : Option QMeta := none
  processed_response : Bool := false
  tests : List Test := []
  hidden_tests : List Test := []
  manual_questions : List String := []
  md_has_prompt : Bool := false
  tests_dir : TestDir := []
deriving DecidableEq, Repr

/-- Lines 186-197: close the open question.  Only entered when a question is
open and its response has been processed, so `question.getD` is exact. -/
def close_question (st : SegState) : SegState :=
  let q := st.question.getD {}
  let (cells, dir) :=
    if st.tests.isEmpty then (st.ok_cells, st.tests_dir)
    else
      let (c, d) := gen_test_cell q st.tests st.tests_dir false
      (st.ok_cells ++ [c], d)
  let dir :=
    if st.hidden_tests.isEmpty then dir
    else (gen_test_cell q st.hidden_tests dir true).2
  -- add a cell with the END QUESTION comment if a manually graded question
  let cells := if q.manual then cells ++ [gen_close_export_cell] else cells
  { st with ok_cells := cells, tests_dir := dir, question := none,
            processed_response := false, tests := [], hidden_tests := [],
            md_has_prompt := false }

/-- Lines 199-214: dispatch a cell with no open question (the `else` branch
after any close). -/
def idle_dispatch (py : List String → QMeta) (st : SegState) (cell : Cell) :
    Except SegError SegState := do
  if ← is_question_cell cell then
    let meta ← read_question_metadata py cell
    let manual := meta.manual
    let fmt := meta.format
    let mq :=
      if manual then st.manual_questions ++ [meta.name.getD ""]
      else st.manual_questions
    let qcell ← gen_question_cell cell manual fmt
    pure { st with question := some meta, manual_questions := mq,
                   ok_cells := st.ok_cells ++ [qcell] }
  else if is_solution_cell cell then
    if is_markdown_solution_cell cell then
      pure { st with ok_cells := st.ok_cells ++ [md_answer_cell, cell] }
    else
      pure { st with ok_cells := st.ok_cells ++ [cell] }
  else if is_test_cell cell then
    Except.error (SegError.testOutsideQuestion cell)
  else
    pure { st with ok_cells := st.ok_cells ++ [cell] }

/-- One iteration of the `for cell in cells` loop of `gen_ok_cells`. -/
def step (py : List String → QMeta) (st : SegState) (cell : Cell) :
    Except SegError SegState := do
  -- this is the prompt cell or if a manual question then the solution cell
  if st.question.isSome && !st.processed_response then
    if ← is_question_cell cell then
      Except.error (SegError.questionInPromptPos cell)
    else if is_test_cell cell then
      Except.error (SegError.testInPromptPos cell)
    else if is_solution_cell cell && !is_markdown_solution_cell cell then
      Except.error (SegError.solutionInPromptPos cell)
    else
      let q := st.question.getD {}
      -- if this isn't a MD solution cell but in a manual question, it has a prompt
      if !is_solution_cell cell && q.manual then
        pure { st with md_has_prompt := true,
                       ok_cells := st.ok_cells ++ [cell], processed_response := true }
      -- if there is no prompt, add a prompt cell
      else if is_markdown_solution_cell cell && !st.md_has_prompt then
        pure { st with ok_cells := st.ok_cells ++ [md_answer_cell, cell],
                       processed_response := true }
      else
        pure { st with ok_cells := st.ok_cells ++ [cell], processed_response := true }
  -- if this is a test cell, parse and add to correct group
  else if st.question.isSome && st.processed_response && is_test_cell cell then
    let t := read_test cell
    if t.hidden then pure { st with hidden_tests := st.hidden_tests ++ [t] }
    else pure { st with tests := st.tests ++ [t] }
  -- if this is a solution cell, append; if manual question and no prompt, also prompt cell
  else if st.question.isSome && st.processed_response && is_solution_cell cell then
    if is_markdown_solution_cell cell && !st.md_has_prompt then
      pure { st with ok_cells := st.ok_cells ++ [md_answer_cell, cell] }
    else
      pure { st with ok_cells := st.ok_cells ++ [cell] }
  else
    -- the question is over
    let st :=
      if st.question.isSome && st.processed_response then close_question st else st
    idle_dispatch py st cell

/-- `gen_ok_cells(cells, tests_dir)`: fold the step over the master cells,
then flush the still-buffered tests (lines 216-219).  The flush compiles and
persists both tiers but — unlike `close_question` — appends no
`END QUESTION` marker cell.  `question['name']` on the empty dict would be a
`KeyError`; it is unreachable because tests are only buffered while a
question is open. -/
def gen_ok_cells (py : List String → QMeta) (cells : List Cell) :
    Except SegError (List Cell × TestDir × List String) := do
  let st ← cells.foldlM (step py) ({} : SegState)
  let flushed ←
    if st.tests.isEmpty then pure (st.ok_cells, st.tests_dir)
    else
      match st.question with
      | none => Except.error SegError.missingName
      | some q =>
        let cd := gen_test_cell q st.tests st.tests_dir false
        pure (st.ok_cells ++ [cd.1], cd.2)
  let dir ←
    if st.hidden_tests.isEmpty then pure flushed.2
    else
      match st.question with
      | none => Except.error SegError.missingName
      | some q => pure (gen_test_cell q st.hidden_tests flushed.2 true).2
  pure (flushed.1, dir, st.manual_questions)

/-! ### View derivation (`strip_solutions`, `remove_hidden_tests`) -/

/-- `strip_solutions` (lines 419-431): collect the indices of solution cells,
reverse them, and delete them one by one. -/
def strip_solutions (cells : List Cell) : List Cell :=
  let deletion_indices :=
    ((List.range cells.length).filter
      (fun i => is_solution_cell (cells.getD i default))).reverse
  deletion_indices.foldl (fun cs i => cs.eraseIdx i) cells

/-- Case split of `pySuffix` on the position of the last dot (`j` is the
index of the first dot of the reversed name, so `len - 1 - j` is
`name.rfind('.')`). -/
def pySuffixAux (cs : List Char) : Option Nat → String
  | none => ""
  | some j =>
    let i := cs.length - 1 - j
    if 0 < i ∧ i < cs.length - 1 then String.mk (cs.drop i) else ""

/-- `pathlib.PurePath.suffix`: the extension from the last dot, empty when
there is no dot, when the only dot leads the name, or when the dot is the
final character (`suffix = name[i:] if 0 < i < len(name) - 1 else ''` with
`i = name.rfind('.')`). -/
def pySuffix (s : String) : String :=
  pySuffixAux s.data (s.data.reverse.findIdx? (fun c => c == '.'))

/-- `remove_hidden_tests(test_dir)` (lines 447-457): keep `__init__.py` and
non-`.py` entries untouched; of the remaining test files, delete exactly
those whose persisted `hidden` flag is true. -/
def remove_hidden_tests (dir : TestDir) : TestDir :=
  dir.filter
    (fun e => e.1 == "__init__.py" || !(pySuffix e.1 == ".py") || !e.2.hidden)

/-! ## Theorems -/

/-- No string equals itself with a `;` appended (length argument). -/
theorem ne_append_semi (s : String) : ¬ s = s ++ ";" := by
  intro h
  have hlen := congrArg String.length h
  rw [String.length_append] at hlen
  have hone : (";" : String).length = 1 := rfl
  rw [hone] at hlen
  omega

/-- **C4.**  The point value computed by the test compiler follows the
four-case table of the specification, and `gen_test_cell` persists exactly
that value in the written test file. -/
theorem points_resolution_table (q : QMeta) (tests : List Test) (dir : TestDir)
    (hidden : Bool) :
    resolvePoints q hidden =
      (match q.public_points, q.private_points with
       | some pub, some priv => if hidden then priv else pub
       | some pub, none => pub
       | none, some priv => if hidden then priv else 0
       | none, none => q.points.getD 1) ∧
    ∃ rest, (gen_test_cell q tests dir hidden).2 =
      rest ++ [((if hidden then q.name.getD "" ++ "H" ++ ".py" else q.name.getD "" ++ ".py"),
        { name := q.name.getD "", points := resolvePoints q hidden, hidden := hidden,
          suites := [gen_suite tests] })] := by
  constructor
  · cases hp : q.public_points <;> cases hv : q.private_points <;>
      simp [resolvePoints, hp, hv]
  · exact ⟨_, rfl⟩

/-- **C5 (amended).**  Rendering the test case for input `"x = 1\ny = 2"`
with expected output `"3"` produces the three transcript lines
`">>> x = 1;"`, `">>> y = 2"`, `"3"`: a suppression marker IS appended to the
first line, because the line that follows it is the second statement. -/
theorem transcript_rendering_example :
    suppressLines (renderLines "x = 1\ny = 2") ++ ["3"] =
      [">>> x = 1" ++ ";", ">>> y = 2", "3"] ∧
    (gen_case { input := "x = 1\ny = 2", output := "3", hidden := false }).code =
      ">>> x = 1;\n>>> y = 2\n3" :=
  ⟨rfl, rfl⟩

/-- **C5 (counterexample).**  The transcript is NOT the marker-free
`">>> x = 1"`, `">>> y = 2"`, `"3"` that the claim states. -/
theorem transcript_rendering_example_marker :
    (gen_case { input := "x = 1\ny = 2", output := "3", hidden := false }).code ≠
      joinNL [">>> x = 1", ">>> y = 2", "3"] := by
  intro h
  exact absurd (congrArg String.data h) (by decide)

/-- Position-wise characterisation of the suppression pass: line `i` gets a
`;` appended iff line `i+1` exists and starts with the statement marker, the
whole stripped line `i` (its 3-character marker included) is longer than 3
characters, and line `i` does not end in a backslash. -/
theorem suppress_getD : ∀ (ls : List String) (i : Nat),
    ((suppressLines ls).getD i "" = ls.getD i "" ++ ";") ↔
      (i + 1 < ls.length ∧ strStartsWith (ls.getD (i + 1) "") ">>>" = true ∧
        3 < (pyStrip (ls.getD i "")).length ∧ strEndsWith (ls.getD i "") "\\" = false)
  | [], i => by
    simpa [suppressLines, List.getD_nil] using ne_append_semi ""
  | [l], 0 => by
    simpa [suppressLines] using ne_append_semi l
  | [l], (n + 1) => by
    simpa [suppressLines, List.getD_cons_succ, List.getD_nil] using ne_append_semi ""
  | l :: next :: rest, 0 => by
    simp only [suppressLines, List.getD_cons_zero, List.getD_cons_succ,
      List.length_cons]
    cases hb : (strStartsWith next ">>>" && decide ((pyStrip l).length > 3)
        && !strEndsWith l "\\") with
    | true =>
      simp only [Bool.and_eq_true, decide_eq_true_eq, Bool.not_eq_true'] at hb
      obtain ⟨⟨hs, hlen⟩, hesc⟩ := hb
      exact ⟨fun _ => ⟨by omega, hs, hlen, hesc⟩, fun _ => by simp⟩
    | false =>
      rw [if_neg Bool.false_ne_true]
      constructor
      · intro h; exact absurd h (ne_append_semi l)
      · rintro ⟨_, hs, hlen, hesc⟩
        have hcontra : (strStartsWith next ">>>" && decide ((pyStrip l).length > 3)
            && !strEndsWith l "\\") = true := by
          simp [hs, hlen, hesc]
        rw [hb] at hcontra
        exact absurd hcontra Bool.false_ne_true
  | l :: next :: rest, (i + 1) => by
    have ih := suppress_getD (next :: rest) i
    simp only [suppressLines, List.getD_cons_succ, List.length_cons] at ih ⊢
    rw [ih]
    constructor
    · rintro ⟨h1, h2⟩; exact ⟨by simp at h1 ⊢; omega, h2⟩
    · rintro ⟨h1, h2⟩; exact ⟨by simp at h1 ⊢; omega, h2⟩

/-- **C6 (amended).**  For every test, a suppression marker is appended to
rendered line `i` iff the next rendered line is a new statement line, the
current line is longer than 3 characters after stripping — a count that
includes the 3-character marker itself, so it demands non-blank content after
the marker, not "more than 3 characters after the marker" — and the current
line does not end in a backslash. -/
theorem suppression_marker_condition (t : Test) (i : Nat) :
    ((suppressLines (renderLines t.input)).getD i "" =
        (renderLines t.input).getD i "" ++ ";") ↔
      (i + 1 < (renderLines t.input).length ∧
        strStartsWith ((renderLines t.input).getD (i + 1) "") ">>>" = true ∧
        3 < (pyStrip ((renderLines t.input).getD i "")).length ∧
        strEndsWith ((renderLines t.input).getD i "") "\\" = false) :=
  suppress_getD (renderLines t.input) i

/-- **C6 (counterexample).**  The statement line `"x=1"` has exactly 3
characters after its marker, yet it DOES receive the suppression marker. -/
theorem suppression_marker_short_statement :
    renderLines "x=1\ny=2" = [">>> " ++ "x=1", ">>> y=2"] ∧
    ("x=1" : String).length = 3 ∧
    suppressLines (renderLines "x=1\ny=2") = [">>> x=1" ++ ";", ">>> y=2"] :=
  ⟨rfl, rfl, rfl⟩

/-- **C7 (code bug).**  `is_markdown_solution_cell` returns `true` on a CODE
cell whose source contains an `MD_SOLUTION_REGEX` line, because the conjunct
`is_solution_cell` in the source is an uncalled (hence always truthy)
function reference; the intended call `is_solution_cell(cell)` would have
returned `false` on this cell, as the second conjunct shows. -/
theorem md_solution_cell_on_code_cell :
    is_markdown_solution_cell
        { cell_type := CellType.code, source := ["**solution**"] } = true ∧
    is_solution_cell
        { cell_type := CellType.code, source := ["**solution**"] } = false :=
  ⟨rfl, rfl⟩

/-- Bind of a successful `Except` computation. -/
theorem except_bind_ok {ε α β : Type} (a : α) (f : α → Except ε β) :
    ((Except.ok a : Except ε α) >>= f) = f a := rfl

/-- Bind of a failed `Except` computation. -/
theorem except_bind_error {ε α β : Type} (e : ε) (f : α → Except ε β) :
    ((Except.error e : Except ε α) >>= f) = Except.error e := rfl

/-- Enumerating a list by indices and filtering selects as many indices as a
direct filter selects elements (`find_question_spec` counts fences through
`range`/indexing; the claims speak of lines equal to the fence token). -/
theorem length_filter_range_getD {α : Type} (p : α → Bool) (d : α) :
    ∀ l : List α,
      ((List.range l.length).filter (fun i => p (l.getD i d))).length = l.countP p
  | [] => by simp
  | a :: l => by
    have ih := length_filter_range_getD p d l
    have hcomp : ((fun i => p ((a :: l).getD i d)) ∘ Nat.succ) =
        (fun i => p (l.getD i d)) := by
      funext i
      simp [Function.comp, List.getD_cons_succ]
    rw [List.length_cons, List.range_succ_eq_map, List.filter_cons,
      List.countP_cons, List.filter_map, hcomp]
    simp only [List.getD_cons_zero]
    by_cases hp : p a = true
    · rw [if_pos hp, if_pos hp, List.length_cons, List.length_map, ih]
    · rw [if_neg hp, if_neg hp, List.length_map, ih]
      omega

/-- **C10.**  A markdown cell whose source holds an odd number of fence-token
lines makes `find_question_spec` fail, so `is_question_cell` propagates the
fence-balance error — whether or not the cell mentions `BEGIN QUESTION` — and
a segmenter step that dispatches such a cell with no open question aborts the
whole transformation with that error. -/
theorem unbalanced_fence_aborts (py : List String → QMeta) (st : SegState)
    (cell : Cell) (hmd : cell.cell_type = CellType.markdown)
    (hodd : cell.source.countP (fun l => l == BLOCK_QUOTE) % 2 = 1) :
    is_question_cell cell = Except.error (SegError.fenceParse cell.source) ∧
    (st.question = none →
      step py st cell = Except.error (SegError.fenceParse cell.source)) := by
  have hlen : ((List.range cell.source.length).filter
      (fun i => cell.source.getD i "" == BLOCK_QUOTE)).length % 2 ≠ 0 := by
    rw [length_filter_range_getD (fun s => s == BLOCK_QUOTE) "" cell.source]
    omega
  have hfq : find_question_spec cell.source =
      Except.error (SegError.fenceParse cell.source) := by
    simp only [find_question_spec]
    rw [if_pos hlen]
  have hq : is_question_cell cell =
      Except.error (SegError.fenceParse cell.source) := by
    simp only [is_question_cell]
    rw [if_neg (by simp [hmd]), hfq, except_bind_error]
  refine ⟨hq, fun hnone => ?_⟩
  simp only [step, hnone, Option.isSome_none, Bool.false_and, Bool.false_eq_true,
    if_false, idle_dispatch]
  rw [hq, except_bind_error]

/-- **C10 (witness).**  A plain one-line markdown cell consisting of a single
fence line (no `BEGIN QUESTION` anywhere) aborts classification and the
segmenter step. -/
theorem unbalanced_fence_aborts_witness :
    is_question_cell { cell_type := CellType.markdown, source := ["```"] } =
      Except.error (SegError.fenceParse ["```"]) ∧
    step (fun _ => {}) {} { cell_type := CellType.markdown, source := ["```"] } =
      Except.error (SegError.fenceParse ["```"]) := by
  have h := unbalanced_fence_aborts (fun _ => {}) {}
    { cell_type := CellType.markdown, source := ["```"] } rfl (by decide)
  exact ⟨h.1, h.2 rfl⟩

/-- `reMatchAllowedName` on a non-empty string is the head's `isAlpha`. -/
theorem reMatch_cons (s : String) (c : Char) (cs : List Char)
    (h : s.data = c :: cs) : reMatchAllowedName s = c.isAlpha := by
  unfold reMatchAllowedName
  rw [h]

/-- `reMatchAllowedName` on the empty string is false. -/
theorem reMatch_nil (s : String) (h : s.data = []) :
    reMatchAllowedName s = false := by
  unfold reMatchAllowedName
  rw [h]

/-- A full-pattern identifier a fortiori matches at the start. -/
theorem reMatch_of_full (s : String) (h : allowedNameFull s = true) :
    reMatchAllowedName s = true := by
  cases hd : s.data with
  | nil =>
    unfold allowedNameFull at h
    rw [hd] at h
    simp at h
  | cons c cs =>
    rw [reMatch_cons s c cs hd]
    unfold allowedNameFull at h
    rw [hd] at h
    simp at h
    exact h.1

/-- **C8 (amended).**  On a well-fenced question cell, `read_question_metadata`
succeeds exactly when the parsed `name` value starts with an ASCII letter:
`ALLOWED_NAME.match` anchors only the start, so the characters after a legal
first letter are unconstrained.  Every name matching the full pattern
`^[A-Za-z][A-Za-z0-9_]*$` is in particular accepted. -/
theorem question_name_prefix_validation (py : List String → QMeta) (cell : Cell)
    (b : Nat) (meta : QMeta)
    (hspec : find_question_spec cell.source = Except.ok (some b))
    (hclose : (cell.source.drop (b + 1)).any (fun l => pyStrip l == BLOCK_QUOTE) = true)
    (hmeta : py ((cell.source.drop (b + 1)).takeWhile
      (fun l => !(pyStrip l == BLOCK_QUOTE))) = meta) :
    (read_question_metadata py cell = Except.ok meta ↔
      ∃ c cs, (meta.name.getD "").data = c :: cs ∧ c.isAlpha = true) ∧
    (allowedNameFull (meta.name.getD "") = true →
      read_question_metadata py cell = Except.ok meta) := by
  have hrun : read_question_metadata py cell =
      (if reMatchAllowedName (meta.name.getD "") then Except.ok meta
       else Except.error (SegError.badName meta)) := by
    simp only [read_question_metadata]
    rw [hspec, except_bind_ok]
    simp only [hclose, if_true, hmeta]
    rfl
  constructor
  · constructor
    · intro h
      rw [hrun] at h
      by_cases hm : reMatchAllowedName (meta.name.getD "") = true
      · cases hd : (meta.name.getD "").data with
        | nil =>
          rw [reMatch_nil _ hd] at hm
          exact absurd hm Bool.false_ne_true
        | cons c cs =>
          rw [reMatch_cons _ c cs hd] at hm
          exact ⟨c, cs, rfl, hm⟩
      · rw [if_neg hm] at h
        exact Except.noConfusion h
    · rintro ⟨c, cs, hd, hc⟩
      rw [hrun, if_pos (by rw [reMatch_cons _ c cs hd]; exact hc)]
  · intro hfull
    rw [hrun, if_pos (reMatch_of_full _ hfull)]

/-- The parse collaborator for the `q1-x` counterexample cell. -/
def c8_py : List String → QMeta := fun lines =>
  if lines == ["name: q1-x"] then { name := some "q1-x" } else {}

/-- A question cell whose name has a legal prefix and an illegal tail. -/
def c8_cell : Cell :=
  { cell_type := CellType.markdown,
    source := ["```", "BEGIN QUESTION", "name: q1-x", "```"] }

/-- **C8 (counterexample).**  The name `q1-x` does not fully match the
identifier pattern, yet `read_question_metadata` accepts it (no
`MalformedQuestionError`), because `re.match` checks only a prefix. -/
theorem question_name_dash_accepted :
    read_question_metadata c8_py c8_cell = Except.ok { name := some "q1-x" } ∧
    allowedNameFull "q1-x" = false :=
  ⟨rfl, rfl⟩

/-- The parse collaborator for the `q2` witness cell. -/
def c8w_py : List String → QMeta := fun lines =>
  if lines == ["name: q2"] then { name := some "q2" } else {}

/-- A well-formed question cell with a fully legal name. -/
def c8w_cell : Cell :=
  { cell_type := CellType.markdown,
    source := ["```", "BEGIN QUESTION", "name: q2", "```"] }

/-- **C8 (witness).**  The amended validation law applied to a concrete
question cell named `q2`. -/
theorem question_name_prefix_validation_witness :
    read_question_metadata c8w_py c8w_cell = Except.ok { name := some "q2" } := by
  have h := question_name_prefix_validation c8w_py c8w_cell 1
    { name := some "q2" } rfl rfl rfl
  exact h.1.mpr ⟨'q', ['2'], rfl, rfl⟩

/-- Erasing only indices ≥ 1 (written as mapped successors) leaves the head
of the list untouched. -/
theorem foldl_eraseIdx_map_succ {α : Type} (a : α) :
    ∀ (ms : List Nat) (l : List α),
      ((ms.map Nat.succ).foldl (fun cs i => cs.eraseIdx i) (a :: l)) =
        a :: ms.foldl (fun cs i => cs.eraseIdx i) l
  | [], _ => rfl
  | m :: ms, l => by
    simp only [List.map_cons, List.foldl_cons, List.eraseIdx_cons_succ]
    exact foldl_eraseIdx_map_succ a ms (l.eraseIdx m)

/-- Collecting the indices at which a predicate holds and deleting them in
decreasing order is the same as filtering by the predicate's negation — the
deletion loop of `strip_solutions`. -/
theorem erase_range_filter {α : Type} (p : α → Bool) (d : α) :
    ∀ l : List α,
      ((((List.range l.length).filter (fun i => p (l.getD i d))).reverse).foldl
          (fun cs i => cs.eraseIdx i) l) =
        l.filter (fun x => !p x)
  | [] => by simp
  | a :: l => by
    have ih := erase_range_filter p d l
    have hcomp : ((fun i => p ((a :: l).getD i d)) ∘ Nat.succ) =
        (fun i => p (l.getD i d)) := by
      funext i
      simp [Function.comp, List.getD_cons_succ]
    rw [List.length_cons, List.range_succ_eq_map, List.filter_cons,
      List.filter_map, hcomp]
    simp only [List.getD_cons_zero]
    by_cases hp : p a = true
    · rw [if_pos hp, List.reverse_cons, List.foldl_append, List.reverse_map,
        foldl_eraseIdx_map_succ, ih]
      simp only [List.foldl_cons, List.foldl_nil, List.eraseIdx_cons_zero]
      rw [List.filter_cons, if_neg (by simp [hp])]
    · have hpa : p a = false := Bool.eq_false_iff.mpr hp
      rw [if_neg hp, List.reverse_map, foldl_eraseIdx_map_succ, ih]
      rw [List.filter_cons, if_pos (by simp [hpa])]

/-- **C2.**  Deriving the learner notebook deletes exactly the
solution-marked cells: `strip_solutions` equals filtering the instructor cell
sequence by not-`is_solution_cell` (so every unmarked cell survives unchanged
and in order), and no solution-marked cell remains. -/
theorem strip_solutions_eq_filter (cells : List Cell) :
    strip_solutions cells = cells.filter (fun c => !is_solution_cell c) ∧
    ∀ c ∈ strip_solutions cells, is_solution_cell c = false := by
  have heq : strip_solutions cells = cells.filter (fun c => !is_solution_cell c) := by
    simp only [strip_solutions]
    exact erase_range_filter is_solution_cell default cells
  refine ⟨heq, fun c hc => ?_⟩
  rw [heq] at hc
  have hcp := (List.mem_filter.mp hc).2
  simpa using hcp

/-- `pathlib` suffix of a non-empty stem followed by `.py`. -/
theorem pySuffix_py (n : String) (hn : n.data ≠ []) : pySuffix (n ++ ".py") = ".py" := by
  have hdata : (n ++ ".py").data = n.data ++ ['.', 'p', 'y'] := by
    rw [String.data_append]
  simp only [pySuffix, hdata, List.reverse_append]
  have hrev : (['.', 'p', 'y'] : List Char).reverse = ['y', 'p', '.'] := rfl
  rw [hrev]
  have hfind : List.findIdx? (fun c => c == '.')
      (['y', 'p', '.'] ++ n.data.reverse) = some 2 := by
    simp [List.findIdx?_cons]
  rw [hfind]
  simp only [pySuffixAux]
  have hlen : (n.data ++ ['.', 'p', 'y']).length = n.data.length + 3 := by
    simp [List.length_append]
  have hn0 : 0 < n.data.length := List.length_pos.mpr hn
  rw [hlen]
  rw [if_pos (by omega)]
  have hi : n.data.length + 3 - 1 - 2 = n.data.length := by omega
  rw [hi, List.drop_left]

/-- `pathlib` suffix of a non-empty stem followed by `H.py`. -/
theorem pySuffix_Hpy (n : String) (hn : n.data ≠ []) : pySuffix (n ++ "H.py") = ".py" := by
  have hdata : (n ++ "H.py").data = n.data ++ ['H', '.', 'p', 'y'] := by
    rw [String.data_append]
  simp only [pySuffix, hdata, List.reverse_append]
  have hrev : (['H', '.', 'p', 'y'] : List Char).reverse = ['y', 'p', '.', 'H'] := rfl
  rw [hrev]
  have hfind : List.findIdx? (fun c => c == '.')
      (['y', 'p', '.', 'H'] ++ n.data.reverse) = some 2 := by
    simp [List.findIdx?_cons]
  rw [hfind]
  simp only [pySuffixAux]
  have hlen : (n.data ++ ['H', '.', 'p', 'y']).length = n.data.length + 4 := by
    simp [List.length_append]
  have hn0 : 0 < n.data.length := List.length_pos.mpr hn
  rw [hlen]
  rw [if_pos (by omega)]
  have hi : n.data.length + 4 - 1 - 2 = n.data.length + 1 := by omega
  rw [hi]
  have hdrop : (n.data ++ ['H', '.', 'p', 'y']).drop (n.data.length + 1) =
      ['.', 'p', 'y'] := by
    rw [← List.drop_drop, List.drop_left]
    rfl
  rw [hdrop]

/-- A filename built from a letter-initial question name is never
`__init__.py`. -/
theorem shaped_ne_init (n : String) (c : Char) (cs : List Char)
    (hd : n.data = c :: cs) (hα : c.isAlpha = true) (tail : String) :
    ((n ++ tail) == "__init__.py") = false := by
  rw [beq_eq_false_iff_ne]
  intro h
  have hdata := congrArg String.data h
  rw [String.data_append, hd] at hdata
  have h2 : c :: (cs ++ tail.data) =
      '_' :: ['_', 'i', 'n', 'i', 't', '_', '_', '.', 'p', 'y'] := hdata.trans rfl
  injection h2 with hc _
  rw [hc] at hα
  exact absurd hα (by decide)

/-- **C3.**  On a tests directory whose entries are the files written during
segmentation (filename = question name, `H`-suffixed for the hidden tier,
with the persisted `hidden` flag matching), `remove_hidden_tests` removes
every hidden test file and keeps every non-hidden one, adding nothing. -/
theorem remove_hidden_tests_spec (dir : TestDir)
    (hshape : ∀ e ∈ dir,
      e.1 = e.2.name ++ (if e.2.hidden then "H.py" else ".py") ∧
      reMatchAllowedName e.2.name = true) :
    (∀ e ∈ remove_hidden_tests dir, e.2.hidden = false) ∧
    (∀ e ∈ dir, e.2.hidden = false → e ∈ remove_hidden_tests dir) ∧
    (∀ e ∈ remove_hidden_tests dir, e ∈ dir) := by
  refine ⟨?_, ?_, ?_⟩
  · intro e he
    obtain ⟨hdir, hkeep⟩ := List.mem_filter.mp he
    obtain ⟨hname, hvalid⟩ := hshape e hdir
    cases hh : e.2.hidden with
    | false => rfl
    | true =>
      exfalso
      obtain ⟨c, cs, hd, hα⟩ : ∃ c cs, e.2.name.data = c :: cs ∧ c.isAlpha = true := by
        cases hdd : e.2.name.data with
        | nil =>
          rw [reMatch_nil _ hdd] at hvalid
          exact absurd hvalid Bool.false_ne_true
        | cons c cs =>
          rw [reMatch_cons _ c cs hdd] at hvalid
          exact ⟨c, cs, rfl, hvalid⟩
      have hne := shaped_ne_init e.2.name c cs hd hα "H.py"
      have hsuf := pySuffix_Hpy e.2.name (by rw [hd]; simp)
      rw [hname] at hkeep
      simp [hh, hne, hsuf] at hkeep
  · intro e hdir hh
    exact List.mem_filter.mpr ⟨hdir, by simp [hh]⟩
  · intro e he
    exact (List.mem_filter.mp he).1

/-- A two-tier tests directory as written during segmentation for `q1`. -/
def c3_dir : TestDir :=
  [("q1.py", { name := "q1", points := 1, hidden := false, suites := [] }),
   ("q1H.py", { name := "q1", points := 1, hidden := true, suites := [] })]

/-- **C3 (witness).**  Hidden-tier exclusivity applied to a concrete
directory holding `q1.py` and `q1H.py`. -/
theorem remove_hidden_tests_spec_witness :
    (∀ e ∈ remove_hidden_tests c3_dir, e.2.hidden = false) ∧
    ("q1.py", ({ name := "q1", points := 1, hidden := false, suites := [] } :
      TestFileRec)) ∈ remove_hidden_tests c3_dir := by
  have h := remove_hidden_tests_spec c3_dir (by decide)
  exact ⟨h.1, h.2.1 _ (by decide) rfl⟩

/-- A line matched by the tail of `TEST_REGEX` begins with `h` or `t` (the
first token after the opening hashes is `hidden` or `test`). -/
theorem testTail_head (r : List Char) (h : testTail r = true) :
    ∃ c cs, r = c :: cs ∧ (c.toLower = 'h' ∨ c.toLower = 't') := by
  cases r with
  | nil => simp [testTail, testWord, stripCI] at h
  | cons c cs =>
    refine ⟨c, cs, rfl, ?_⟩
    by_contra hcon
    push_neg at hcon
    obtain ⟨h1, h2⟩ := hcon
    have hb1 : (c.toLower == 'h') = false := beq_eq_false_iff_ne.mpr h1
    have hb2 : (c.toLower == 't') = false := beq_eq_false_iff_ne.mpr h2
    simp [testTail, testWord, stripCI, hb1, hb2] at h

/-- `TEST_REGEX` and `SOLUTION_REGEX` are disjoint: after the opening hashes
and whitespace, one requires `hidden`/`test`, the other `solution`. -/
theorem test_not_solution (l : List Char) (h : testRegexMatch l = true) :
    solutionRegexMatch l = false := by
  unfold testRegexMatch at h
  unfold solutionRegexMatch
  cases h2 : stripCI ['#', '#'] l with
  | none => rfl
  | some r =>
    rw [h2] at h
    obtain ⟨c, cs, hr, hct⟩ := testTail_head (r.dropWhile pyIsSpace) (by simpa using h)
    have hcs : (c.toLower == 's') = false := by
      rcases hct with h3 | h3 <;> rw [h3] <;> decide
    simp [hr, stripCI, hcs]

/-- A test cell (code, first line matching `TEST_REGEX`) is neither a
solution cell nor a question cell. -/
theorem test_cell_not_solution_cell (cell : Cell) (ht : is_test_cell cell = true) :
    is_solution_cell cell = false ∧ is_question_cell cell = Except.ok false := by
  obtain ⟨l, ls, hsrc, hct, hm⟩ :
      ∃ l ls, cell.source = l :: ls ∧ cell.cell_type = CellType.code ∧
        testRegexMatch l.data = true := by
    unfold is_test_cell at ht
    cases hct : cell.cell_type with
    | markdown => rw [hct] at ht; simp at ht
    | code =>
      cases hsrc : cell.source with
      | nil => rw [hct, hsrc] at ht; simp at ht
      | cons l ls =>
        rw [hct, hsrc] at ht
        exact ⟨l, ls, rfl, rfl, by simpa using ht⟩
  constructor
  · simp [is_solution_cell, hct, hsrc, test_not_solution l.data hm]
  · simp [is_question_cell, hct]

/-- The segmenter step on a test cell with no open question fails with the
`Test outside of a question` assertion. -/
theorem step_idle_on_test (py : List String → QMeta) (st : SegState) (cell : Cell)
    (hq : st.question = none) (ht : is_test_cell cell = true) :
    step py st cell = Except.error (SegError.testOutsideQuestion cell) := by
  obtain ⟨hsol, hqcell⟩ := test_cell_not_solution_cell cell ht
  simp only [step, hq, Option.isSome_none, Bool.false_and, Bool.false_eq_true,
    if_false, idle_dispatch]
  rw [hqcell, except_bind_ok]
  rw [if_neg Bool.false_ne_true, hsol]
  rw [if_neg Bool.false_ne_true, ht]
  rw [if_pos rfl]

/-- **C9.**  Any master cell sequence that reaches a test cell while no
question is open (dispatching it under the Idle rules) aborts the whole
transformation with the `Test outside of a question` error carrying the
offending cell; no cell sequence is produced at all, so in particular the
test cell is never passed through. -/
theorem test_cell_outside_question_errors (py : List String → QMeta)
    (pre post : List Cell) (cell : Cell) (st : SegState)
    (hpre : pre.foldlM (step py) ({} : SegState) = Except.ok st)
    (hq : st.question = none) (ht : is_test_cell cell = true) :
    gen_ok_cells py (pre ++ cell :: post) =
      Except.error (SegError.testOutsideQuestion cell) := by
  have hstep := step_idle_on_test py st cell hq ht
  have hfold : (pre ++ cell :: post).foldlM (step py) ({} : SegState) =
      Except.error (SegError.testOutsideQuestion cell) := by
    rw [List.foldlM_append, hpre, except_bind_ok, List.foldlM_cons, hstep,
      except_bind_error]
  simp only [gen_ok_cells]
  rw [hfold, except_bind_error]

/-- A public test cell, for dispatching in the idle state. -/
def c9_cell : Cell := { cell_type := CellType.code, source := ["## Test ##", "2 + 2"] }

/-- **C9 (witness).**  A master sequence consisting of one stray test cell
aborts with the `Test outside of a question` error. -/
theorem test_cell_outside_question_errors_witness :
    gen_ok_cells (fun _ => {}) [c9_cell] =
      Except.error (SegError.testOutsideQuestion c9_cell) :=
  test_cell_outside_question_errors (fun _ => {}) [] [] c9_cell {} rfl rfl rfl

/-- Bind of `pure` in `Except`. -/
theorem except_pure_bind {ε α β : Type} (a : α) (f : α → Except ε β) :
    ((pure a : Except ε α) >>= f) = f a := rfl

/-- **C1 (amended).**  When the master sequence ends with a manual question
still open (response processed, both test buffers non-empty), the final flush
of `gen_ok_cells` appends exactly one cell — the public grading cell — to the
emitted sequence, persists the public and then the hidden test file, and does
NOT append the end-of-manual-question marker cell (unlike `close_question`,
which `gen_close_export_cell` is appended by on an in-stream close). -/
theorem end_close_appends_only_grading_cell (py : List String → QMeta)
    (cells : List Cell) (st : SegState) (q : QMeta)
    (hfold : cells.foldlM (step py) ({} : SegState) = Except.ok st)
    (hq : st.question = some q) (hman : q.manual = true)
    (hts : st.tests ≠ []) (hhs : st.hidden_tests ≠ []) :
    gen_ok_cells py cells = Except.ok
      (st.ok_cells ++ [(gen_test_cell q st.tests st.tests_dir false).1],
       (gen_test_cell q st.hidden_tests
         (gen_test_cell q st.tests st.tests_dir false).2 true).2,
       st.manual_questions) ∧
    (gen_test_cell q st.tests st.tests_dir false).1 ≠ gen_close_export_cell := by
  have h1 : st.tests.isEmpty = false :=
    Bool.eq_false_iff.mpr (fun hc => hts (List.isEmpty_iff.mp hc))
  have h2 : st.hidden_tests.isEmpty = false :=
    Bool.eq_false_iff.mpr (fun hc => hhs (List.isEmpty_iff.mp hc))
  constructor
  · simp only [gen_ok_cells, hfold, except_bind_ok, except_pure_bind, h1, h2, hq,
      Bool.false_eq_true, if_false]
    rfl
  · intro hcontra
    have hty := congrArg Cell.cell_type hcontra
    simp [gen_test_cell, gen_close_export_cell, lock] at hty

/-- The parse collaborator for the open-manual-question scenario. -/
def c1_py : List String → QMeta := fun lines =>
  if lines == ["name: q1", "manual: true"] then { name := some "q1", manual := true }
  else {}

/-- The manual question cell of the scenario. -/
def c1_qcell : Cell :=
  { cell_type := CellType.markdown,
    source := ["```", "BEGIN QUESTION", "name: q1", "manual: true", "```", "Compute."] }

/-- The prompt cell of the scenario. -/
def c1_prompt : Cell := { cell_type := CellType.markdown, source := ["Write your answer."] }

/-- The public test cell of the scenario. -/
def c1_pub : Cell :=
  { cell_type := CellType.code, source := ["## Test ##", "2 + 2"],
    outputs := [{ text := ["4"] }] }

/-- The hidden test cell of the scenario. -/
def c1_hid : Cell :=
  { cell_type := CellType.code, source := ["## Hidden Test ##", "q1x"],
    outputs := [{ text := ["9"] }] }

/-- A master sequence whose manual question `q1` is still open at the end of
the stream. -/
def c1_cells : List Cell := [c1_qcell, c1_prompt, c1_pub, c1_hid]

/-- The metadata of `q1`. -/
def c1_meta : QMeta := { name := some "q1", manual := true }

/-- The segmenter state after scanning `c1_cells`. -/
def c1_state : SegState :=
  { ok_cells :=
      [lock { cell_type := CellType.markdown,
              source := ["<!-- BEGIN QUESTION -->", "", "<!--", "BEGIN QUESTION",
                         "name: q1", "manual: true", "-->", "Compute."] },
       c1_prompt],
    question := some c1_meta,
    processed_response := true,
    tests := [{ input := "2 + 2", output := "4", hidden := false }],
    hidden_tests := [{ input := "q1x", output := "9", hidden := true }],
    manual_questions := ["q1"],
    md_has_prompt := true,
    tests_dir := [] }

/-- **C1 (witness).**  The amended end-of-stream law applied to the concrete
still-open manual question `q1`. -/
theorem end_close_appends_only_grading_cell_witness :
    gen_ok_cells c1_py c1_cells = Except.ok
      (c1_state.ok_cells ++
        [(gen_test_cell c1_meta c1_state.tests c1_state.tests_dir false).1],
       (gen_test_cell c1_meta c1_state.hidden_tests
         (gen_test_cell c1_meta c1_state.tests c1_state.tests_dir false).2 true).2,
       c1_state.manual_questions) ∧
    (gen_test_cell c1_meta c1_state.tests c1_state.tests_dir false).1 ≠
      gen_close_export_cell :=
  end_close_appends_only_grading_cell c1_py c1_cells c1_state c1_meta rfl rfl rfl
    (by decide) (by decide)

/-- **C1 (counterexample).**  After the same run, the manual question `q1`
was open at the end of the stream (its name is in the manual registry and
both tier files were persisted), yet no end-of-manual-question marker cell
occurs anywhere in the emitted sequence — the end-of-stream close is NOT the
same full close as an in-stream close. -/
theorem end_close_manual_marker_missing :
    (gen_ok_cells c1_py c1_cells).map
        (fun r => (r.1.any (fun c => c == gen_close_export_cell), r.2.2,
                   r.2.1.map Prod.fst)) =
      Except.ok (false, ["q1"], ["q1.py", "q1H.py"]) := rfl

end Otter
